import Mathlib

/-!
Shallow embedding of `src/proxy/src/transport/tls/config.rs`: the TLS
credential hot-reload core of the proxy.  The production code consists of

* `CommonSettings` (the three credential file paths) and
  `CommonSettings::stream_changes`, which filter-maps the filesystem watcher
  ticks through `CommonConfig::load_from_disk`;
* `CommonConfig::load_from_disk`, the snapshot loader, together with the
  helper `load_file_contents` (read a whole file, retrying interrupted
  reads);
* `ServerConfig::from` and `set_common_settings`, which derive the rustls
  server configuration from a validated `CommonConfig`;
* `watch_for_config_changes`, the broadcaster: a fold over the change
  stream that stores a `ClientConfig` and a `ServerConfig` into two watch
  slots and terminates when a store reports that all watchers of a slot
  have been dropped.

External library operations (rustls PEM extraction, webpki trust-anchor
conversion and path validation, key parsing) are kept abstract as fields of
a `Deps` record.  `CertResolver::new` lives in `cert_resolver.rs`, which is
not part of the sources; it is modelled from the specification (see its doc
comment).  Files are modelled by the sequence of `read_to_end` attempts
they produce, so that the retry loop of `load_file_contents` is faithfully
represented.
-/

namespace TlsConfig

/-- Byte strings read from files. -/
abbrev Bytes := List Nat

/-- Filesystem paths (`std::path::PathBuf`). -/
abbrev Path := String

/-- The wall-clock instant used for X.509 path validation. -/
abbrev Time := Nat

/-- Opaque webpki error detail (`webpki::Error`). -/
abbrev WebpkiError := Nat

/-- The webpki time representation produced from the system clock. -/
abbrev WebpkiTime := Nat

/-- A parsed trust anchor (`webpki::TrustAnchor`), kept abstract. -/
abbrev TrustAnchor := Bytes

/-- A parsed private key, kept abstract. -/
abbrev ParsedKey := Bytes

/-- Kinds of I/O errors (`std::io::ErrorKind`), distinguishing the
transient `Interrupted` kind that the read loop of `load_file_contents`
retries. -/
inductive IoErrorKind where
  | interrupted
  | otherKind (n : Nat)
deriving DecidableEq

/-- An I/O error (`std::io::Error`): its kind plus an opaque payload that
lets two distinct causes of the same kind be told apart. -/
structure IoError where
  kind : IoErrorKind
  code : Nat
deriving DecidableEq

/-- The error type of the loader (`enum Error` in config.rs). -/
inductive Error where
  | Io : Path → IoError → Error
  | FailedToParseTrustAnchors : Option WebpkiError → Error
  | EndEntityCertIsNotValid : WebpkiError → Error
  | InvalidPrivateKey : Error
  | TimeConversionFailed : Error
deriving DecidableEq

/-- One `file.read_to_end(&mut result)` attempt: the bytes it appended to
the buffer and its outcome (`none` models `Ok`, the read reached end of
file; `some e` models `Err(e)`). -/
structure ReadAttempt where
  chunk : Bytes
  outcome : Option IoError
deriving DecidableEq

/-- Behaviour of one file: the result of `File::open` (`some e` means the
open fails with `e`) and the sequence of `read_to_end` attempts the open
file produces. -/
structure FileBehavior where
  openResult : Option IoError
  attempts : List ReadAttempt
deriving DecidableEq

/-- A filesystem assigns to each path the behaviour of the file found
there. -/
abbrev FS := Path → FileBehavior

/-- The `loop` inside `load_file`: repeatedly call `read_to_end`,
accumulating bytes; return the accumulated buffer on a successful read,
retry on an `Interrupted` error, and fail on any other error.  The result
`none` models an unending sequence of interrupted attempts (the loop never
returns). -/
def load_file_loop : List ReadAttempt → Bytes → Option (Except IoError Bytes)
  | [], _ => none
  | a :: rest, acc =>
    let acc2 := acc ++ a.chunk
    match a.outcome with
    | none => some (Except.ok acc2)
    | some e =>
      if e.kind = IoErrorKind.interrupted then load_file_loop rest acc2
      else some (Except.error e)

/-- The inner `load_file` of `load_file_contents`: open the file, then run
the read loop on an empty buffer. -/
def load_file (fb : FileBehavior) : Option (Except IoError Bytes) :=
  match fb.openResult with
  | some e => some (Except.error e)
  | none => load_file_loop fb.attempts []

/-- `load_file_contents`: read a whole file, wrapping any I/O failure as
`Error::Io(path.clone(), e)`. -/
def load_file_contents (path : Path) (fs : FS) : Option (Except Error Bytes) :=
  (load_file (fs path)).map (fun r =>
    match r with
    | Except.ok contents => Except.ok contents
    | Except.error e => Except.error (Error.Io path e))

/-- The external library operations the loader composes, kept abstract:
rustls's PEM certificate extraction (`rustls::internal::pemfile::certs`),
webpki's `trust_anchor_util::cert_der_as_trust_anchor`, conversion of the
system clock to webpki time, X.509 validation of the end-entity chain
against the trust anchors at a given time, and PKCS#8 private-key parsing
and key/certificate matching (the last four are consumed by
`CertResolver::new`). -/
structure Deps where
  pemfile_certs : Bytes → Except Unit (List Bytes)
  cert_der_as_trust_anchor : Bytes → Except WebpkiError TrustAnchor
  time_to_webpki : Time → Except Unit WebpkiTime
  validate_end_entity_cert :
    List TrustAnchor → List Bytes → WebpkiTime → Except WebpkiError Unit
  parse_private_key : Bytes → Option ParsedKey
  key_matches_cert : ParsedKey → List Bytes → Bool

/-- The validated key material held by a resolver: the presented
certificate chain and the parsed signing key. -/
structure CertResolver where
  cert_chain : List Bytes
  key : ParsedKey
deriving DecidableEq

/-- Modelled from the spec: `CertResolver::new` lives in
`cert_resolver.rs`, which is not among the sources; config.rs only calls
it.  Following the specification's Loader algorithm (steps 4 to 6) and its
error taxonomy, it normalizes the wall clock (failure yields
`TimeConversionFailed`), syntactically validates the end-entity certificate
and verifies that it chains to a trust anchor under X.509 path validation
at the current time (failure yields `EndEntityCertIsNotValid(detail)`), and
only then parses the PKCS#8 private key and checks that it matches the
certificate (failure at either step yields `InvalidPrivateKey`). -/
def CertResolver.new (deps : Deps) (trust_anchors : List TrustAnchor)
    (cert_chain : List Bytes) (private_key : Bytes) (now : Time) :
    Except Error CertResolver :=
  match deps.time_to_webpki now with
  | Except.error _ => Except.error Error.TimeConversionFailed
  | Except.ok t =>
    match deps.validate_end_entity_cert trust_anchors cert_chain t with
    | Except.error e => Except.error (Error.EndEntityCertIsNotValid e)
    | Except.ok _ =>
      match deps.parse_private_key private_key with
      | none => Except.error Error.InvalidPrivateKey
      | some key =>
        if deps.key_matches_cert key cert_chain then
          Except.ok { cert_chain := cert_chain, key := key }
        else Except.error Error.InvalidPrivateKey

/-- `CommonSettings`: the three credential file paths. -/
structure CommonSettings where
  trust_anchors : Path
  end_entity_cert : Path
  private_key : Path
deriving DecidableEq

/-- `CommonSettings::paths`. -/
def CommonSettings.paths (s : CommonSettings) : List Path :=
  [s.trust_anchors, s.end_entity_cert, s.private_key]

/-- `CommonConfig`: the validated bundle, holding a shared
`Arc<CertResolver>`. -/
structure CommonConfig where
  cert_resolver : CertResolver
deriving DecidableEq

/-- The `for ta in &trust_anchor_certs` loop of `load_from_disk`: convert
each PEM-extracted certificate into a trust anchor, failing at the first
certificate webpki rejects. -/
def parse_trust_anchors (deps : Deps) :
    List Bytes → Except WebpkiError (List TrustAnchor)
  | [] => Except.ok []
  | ta :: rest =>
    match deps.cert_der_as_trust_anchor ta with
    | Except.error e => Except.error e
    | Except.ok t =>
      match parse_trust_anchors deps rest with
      | Except.error e => Except.error e
      | Except.ok ts => Except.ok (t :: ts)

/-- `CommonConfig::load_from_disk`: read and PEM-parse the trust anchors
(`FailedToParseTrustAnchors(None)` when extraction fails, `Some(e)` when a
certificate is not a valid trust anchor), read the end-entity certificate,
form the one-element chain, read the private-key file, and hand everything
to `CertResolver::new` for validation.  The outer `Option` propagates the
(unreachable in practice) case of a file whose reads are interrupted
forever. -/
def CommonConfig.load_from_disk (deps : Deps) (settings : CommonSettings)
    (fs : FS) (now : Time) : Option (Except Error CommonConfig) :=
  match load_file_contents settings.trust_anchors fs with
  | none => none
  | some (Except.error e) => some (Except.error e)
  | some (Except.ok file_contents) =>
    match deps.pemfile_certs file_contents with
    | Except.error _ =>
      some (Except.error (Error.FailedToParseTrustAnchors none))
    | Except.ok trust_anchor_certs =>
      match parse_trust_anchors deps trust_anchor_certs with
      | Except.error e =>
        some (Except.error (Error.FailedToParseTrustAnchors (some e)))
      | Except.ok trust_anchors =>
        match load_file_contents settings.end_entity_cert fs with
        | none => none
        | some (Except.error e) => some (Except.error e)
        | some (Except.ok end_entity_cert) =>
          let cert_chain := [end_entity_cert]
          match load_file_contents settings.private_key fs with
          | none => none
          | some (Except.error e) => some (Except.error e)
          | some (Except.ok private_key) =>
            match CertResolver.new deps trust_anchors cert_chain private_key now with
            | Except.error e => some (Except.error e)
            | Except.ok cert_resolver =>
              some (Except.ok { cert_resolver := cert_resolver })

/-- `CommonSettings::stream_changes`: every watcher tick supplies the
filesystem state and the clock at that tick; `filter_map` keeps only the
successfully loaded configurations, logging and discarding every loader
error. -/
def CommonSettings.stream_changes (deps : Deps) (settings : CommonSettings)
    (ticks : List (FS × Time)) : List CommonConfig :=
  ticks.filterMap (fun t =>
    match CommonConfig.load_from_disk deps settings t.1 t.2 with
    | some (Except.ok config) => some config
    | _ => none)

/-- Protocol versions (`rustls::ProtocolVersion`). -/
inductive ProtocolVersion where
  | TLSv1_0
  | TLSv1_1
  | TLSv1_2
  | TLSv1_3
deriving DecidableEq

/-- Client-certificate policy handed to `rustls::ServerConfig::new`. -/
inductive ClientAuth where
  | NoClientAuth
  | RequireClientAuth
deriving DecidableEq

/-- The fields of `rustls::ServerConfig` that config.rs touches. -/
structure RustlsServerConfig where
  client_auth : ClientAuth
  versions : List ProtocolVersion
  cert_resolver : Option CertResolver
deriving DecidableEq

/-- `rustls::ServerConfig::new(client_auth)`: the library's default
protocol-version list is not part of the sources, so it is a parameter. -/
def RustlsServerConfig.new (defaultVersions : List ProtocolVersion)
    (auth : ClientAuth) : RustlsServerConfig :=
  { client_auth := auth, versions := defaultVersions, cert_resolver := none }

/-- `set_common_settings(&mut config.versions)`: only enable TLS 1.2. -/
def set_common_settings (_versions : List ProtocolVersion) :
    List ProtocolVersion :=
  [ProtocolVersion.TLSv1_2]

/-- `ClientConfig`: the placeholder `ClientConfig(Arc::new(()))`. -/
structure ClientConfig where
  arc : Unit
deriving DecidableEq

/-- `ServerConfig(Arc<rustls::ServerConfig>)`. -/
structure ServerConfig where
  inner : RustlsServerConfig
deriving DecidableEq

/-- `ServerConfig::from(common)` (`from` is a Lean keyword, hence
`from_common`): build a rustls server configuration with `NoClientAuth`,
restrict the versions via `set_common_settings`, and install the shared
`cert_resolver` of the `CommonConfig`. -/
def ServerConfig.from_common (defaultVersions : List ProtocolVersion)
    (common : CommonConfig) : ServerConfig :=
  let config := RustlsServerConfig.new defaultVersions ClientAuth.NoClientAuth
  let config2 := { config with versions := set_common_settings config.versions }
  let config3 := { config2 with cert_resolver := some common.cert_resolver }
  { inner := config3 }

/-- The two broadcast slots (`futures_watch::Watch` values): each holds
`None` until a generation is published into it. -/
structure Slots where
  client : Option ClientConfig
  server : Option ServerConfig
deriving DecidableEq

/-- One step of the fold in `watch_for_config_changes` for a successfully
loaded configuration: store the placeholder client configuration, then the
derived server configuration.  `Store::store` fails exactly when all
watchers of that slot have been dropped, which aborts the step and
terminates the fold (second component `false`); a failed client store
leaves both slots untouched, a failed server store leaves the client slot
already updated. -/
def fold_step (defaultVersions : List ProtocolVersion)
    (clientAlive serverAlive : Bool) (slots : Slots) (config : CommonConfig) :
    Slots × Bool :=
  if clientAlive then
    let slots2 := { slots with client := some { arc := () } }
    if serverAlive then
      ({ slots2 with
          server := some (ServerConfig.from_common defaultVersions config) },
        true)
    else (slots2, false)
  else (slots, false)

deriving instance DecidableEq for Except

/-- One watcher tick as the broadcaster sees it: the loader's result for
that tick, and whether each slot still has live watchers when the fold
stores into it. -/
structure TickEnv where
  load : Except Error CommonConfig
  clientAlive : Bool
  serverAlive : Bool
deriving DecidableEq

/-- The broadcaster pipeline of `watch_for_config_changes`: the fold run
over the stream of per-tick loader results (the `filter_map` of
`stream_changes` drops error ticks, so they reach the fold as nothing).
Returns the final slots and whether the fold is still running (`true`) or
has terminated because a store failed (`false`). -/
def watch_run (defaultVersions : List ProtocolVersion) :
    List TickEnv → Slots → Slots × Bool
  | [], slots => (slots, true)
  | t :: rest, slots =>
    match t.load with
    | Except.error _ => watch_run defaultVersions rest slots
    | Except.ok config =>
      match fold_step defaultVersions t.clientAlive t.serverAlive slots config with
      | (slots2, true) => watch_run defaultVersions rest slots2
      | (slots2, false) => (slots2, false)

/-- The generations fully published by the fold: for each tick whose load
succeeded and whose two stores both succeeded, the stored client view, the
stored server view, and the `CommonConfig` they were derived from. -/
def watch_publications (defaultVersions : List ProtocolVersion) :
    List TickEnv → List (ClientConfig × ServerConfig × CommonConfig)
  | [] => []
  | t :: rest =>
    match t.load with
    | Except.error _ => watch_publications defaultVersions rest
    | Except.ok config =>
      if t.clientAlive then
        if t.serverAlive then
          ({ arc := () }, ServerConfig.from_common defaultVersions config, config)
            :: watch_publications defaultVersions rest
        else []
      else []

/-- The slot pair a subscriber of both slots observes after a list of
publications: the starting slots before the first publication, then always
the pair of the latest publication. -/
def pair_of_pubs (slots : Slots) :
    List (ClientConfig × ServerConfig × CommonConfig) → Slots
  | [] => slots
  | p :: pr => pair_of_pubs { client := some p.1, server := some p.2.1 } pr

/-- The background task returned by `watch_for_config_changes`: either the
already-completed `future::ok(())` of the no-settings branch, or the fold
over the change stream. -/
inductive BgTask where
  | done
  | fold
deriving DecidableEq

/-- Running the background task: the completed task finishes immediately
and never touches the slots; the fold task runs the broadcaster
pipeline. -/
def BgTask.run (defaultVersions : List ProtocolVersion) :
    BgTask → List TickEnv → Slots → Slots × Bool
  | BgTask.done, _, slots => (slots, true)
  | BgTask.fold, ticks, slots => watch_run defaultVersions ticks slots

/-- `watch_for_config_changes`: with no settings, return two watches
holding `None` whose store handles are dropped on the spot, together with
the already-completed background future; with settings, return two
`None`-initialised watches together with the fold task. -/
def watch_for_config_changes (settings : Option CommonSettings) :
    Slots × BgTask :=
  match settings with
  | none => ({ client := none, server := none }, BgTask.done)
  | some _ => ({ client := none, server := none }, BgTask.fold)

/-- Specification of a complete read used to state the end-of-file
property: the contents accumulated by retrying through interrupted attempts
up to the first attempt that reaches end of file, or `none` when a
non-interrupted error (or exhaustion) comes first. -/
def eof_contents : List ReadAttempt → Option Bytes
  | [] => none
  | a :: rest =>
    match a.outcome with
    | none => some a.chunk
    | some e =>
      if e.kind = IoErrorKind.interrupted then
        (eof_contents rest).map (fun c => a.chunk ++ c)
      else none

/-- A dependency bundle in which every external operation succeeds: the
whole anchors file is one certificate, every certificate converts to a
trust anchor, validation and key matching always succeed. -/
def deps0 : Deps :=
  { pemfile_certs := fun b => Except.ok [b]
  , cert_der_as_trust_anchor := fun b => Except.ok b
  , time_to_webpki := fun t => Except.ok t
  , validate_end_entity_cert := fun _ _ _ => Except.ok ()
  , parse_private_key := fun b => some b
  , key_matches_cert := fun _ _ => true }

/-- Like `deps0` but X.509 validation of the end-entity certificate fails
with detail `7`. -/
def deps_badcert : Deps :=
  { deps0 with validate_end_entity_cert := fun _ _ _ => Except.error 7 }

/-- Like `deps0` but PEM extraction of the trust anchors fails. -/
def deps_bad_pem : Deps :=
  { deps0 with pemfile_certs := fun _ => Except.error () }

/-- Like `deps0` but trust-anchor conversion fails with detail `3`. -/
def deps_bad_anchor : Deps :=
  { deps0 with cert_der_as_trust_anchor := fun _ => Except.error 3 }

/-- A concrete path triple. -/
def settings0 : CommonSettings :=
  { trust_anchors := "ca.pem"
  , end_entity_cert := "test.crt"
  , private_key := "test.p8" }

/-- A filesystem in which each of the three files opens and is read in one
attempt, with contents `[1]`, `[2]` and `[3]` respectively. -/
def fs0 : FS := fun p =>
  if p = "ca.pem" then
    { openResult := none, attempts := [{ chunk := [1], outcome := none }] }
  else if p = "test.crt" then
    { openResult := none, attempts := [{ chunk := [2], outcome := none }] }
  else
    { openResult := none, attempts := [{ chunk := [3], outcome := none }] }

/-- The same file contents as `fs0`, but the trust-anchors file first
yields an interrupted read before delivering its contents. -/
def fs_retry : FS := fun p =>
  if p = "ca.pem" then
    { openResult := none
    , attempts :=
        [ { chunk := [], outcome := some { kind := IoErrorKind.interrupted, code := 0 } }
        , { chunk := [1], outcome := none } ] }
  else fs0 p

/-- A filesystem in which opening the trust-anchors file fails outright. -/
def fs_err : FS := fun p =>
  if p = "ca.pem" then
    { openResult := some { kind := IoErrorKind.otherKind 1, code := 0 }
    , attempts := [] }
  else fs0 p

/-- A resolver and configuration pair used as a concrete generation. -/
def cfgA : CommonConfig := { cert_resolver := { cert_chain := [[1]], key := [1] } }

/-- A second concrete generation with a distinct resolver. -/
def cfgB : CommonConfig := { cert_resolver := { cert_chain := [[2]], key := [2] } }

/-- A single successful tick with live watchers on both slots. -/
def ticksOk : List TickEnv :=
  [{ load := Except.ok cfgA, clientAlive := true, serverAlive := true }]

/-- The generation published by running the fold over `ticksOk`. -/
def pubA : ClientConfig × ServerConfig × CommonConfig :=
  ({ arc := () }, ServerConfig.from_common [] cfgA, cfgA)

/-- A file that is read through one interrupted attempt and then to end of
file, delivering `[1, 2]` in total. -/
def fbRetry : FileBehavior :=
  { openResult := none
  , attempts :=
      [ { chunk := [1], outcome := some { kind := IoErrorKind.interrupted, code := 0 } }
      , { chunk := [2], outcome := none } ] }

/-- Any two values of the placeholder `ClientConfig` type are equal: the
type holds nothing but `Arc<()>`. -/
theorem clientConfig_eq (a b : ClientConfig) : a = b := by
  cases a with
  | mk u =>
    cases b with
    | mk v => cases u; cases v; rfl

/-- Every list of client configurations is a constant list of the
placeholder value. -/
theorem clientConfig_list_replicate (l : List ClientConfig) :
    l = List.replicate l.length { arc := () } := by
  induction l with
  | nil => rfl
  | cons a t ih =>
    have ha : a = { arc := () } := clientConfig_eq a _
    rw [List.length_cons, List.replicate_succ, ← ih, ha]

/-- C6: called with no settings, `watch_for_config_changes` returns two
slots that hold `None`, its background task is the already-completed
future, and running that task never changes the slots, so both slots stay
absent forever. -/
theorem watch_none_absent_forever (d : List ProtocolVersion)
    (ticks : List TickEnv) (slots : Slots) :
    (watch_for_config_changes none).1 = { client := none, server := none }
    ∧ (watch_for_config_changes none).2 = BgTask.done
    ∧ BgTask.run d (watch_for_config_changes none).2 ticks slots = (slots, true) :=
  ⟨rfl, rfl, rfl⟩

/-- C7: every `ServerConfig` derived from a `CommonConfig` permits exactly
the TLS 1.2 protocol version and uses `NoClientAuth`, for any default
version list of the TLS library. -/
theorem server_config_tls12_no_client_auth (d : List ProtocolVersion)
    (c : CommonConfig) :
    (ServerConfig.from_common d c).inner.versions = [ProtocolVersion.TLSv1_2]
    ∧ (ServerConfig.from_common d c).inner.client_auth = ClientAuth.NoClientAuth :=
  ⟨rfl, rfl⟩

/-- C10: every client configuration published by the broadcaster fold is
the fixed placeholder `ClientConfig(Arc::new(()))`: the published list of
client views is a constant list, the fold step stores the placeholder
whatever the loaded configuration is, and all values of the type are
structurally identical. -/
theorem client_config_is_fixed_placeholder (d : List ProtocolVersion)
    (ticks : List TickEnv) (sa : Bool) (slots : Slots) (config : CommonConfig) :
    (watch_publications d ticks).map Prod.fst
      = List.replicate (watch_publications d ticks).length { arc := () }
    ∧ (fold_step d true sa slots config).1.client = some { arc := () }
    ∧ ∀ (a b : ClientConfig), a = b := by
  refine ⟨?_, ?_, clientConfig_eq⟩
  · have h := clientConfig_list_replicate ((watch_publications d ticks).map Prod.fst)
    rwa [List.length_map] at h
  · cases sa <;> simp [fold_step]

/-- C1 counterexample: the broadcaster fold stores the same client view for
two generations whose `CommonConfig`s hold distinct resolvers, while the
stored server views differ; the stored `ClientConfig` therefore cannot
carry a reference to its generation's `CertResolver`, contradicting the
claim that both published views carry a shared reference to the same
resolver. -/
theorem client_view_carries_no_resolver_cex :
    (fold_step [] true true { client := none, server := none } cfgA).1.client
      = (fold_step [] true true { client := none, server := none } cfgB).1.client
    ∧ cfgA.cert_resolver ≠ cfgB.cert_resolver
    ∧ (fold_step [] true true { client := none, server := none } cfgA).1.server
      ≠ (fold_step [] true true { client := none, server := none } cfgB).1.server :=
  ⟨rfl, by decide, by decide⟩

/-- C5 counterexample: a successfully loaded configuration arriving while
the client slot has no watchers left terminates the fold even though the
server slot still has a live subscriber, contradicting the claim that the
fold keeps running as long as some subscriber of either slot remains. -/
theorem fold_terminates_when_one_side_dropped_cex :
    watch_run []
        [{ load := Except.ok cfgA, clientAlive := false, serverAlive := true }]
        { client := none, server := none }
      = ({ client := none, server := none }, false) :=
  rfl

/-- C2: a tick on which the loader fails contributes nothing to the change
stream and leaves both slots exactly as they were, and when every tick
fails the stream emits nothing at all, so no loader error value ever
reaches a subscriber. -/
theorem failed_reload_leaves_publication_intact :
    (∀ (deps : Deps) (settings : CommonSettings) (fs : FS) (now : Time)
        (e : Error) (ticksL ticksR : List (FS × Time)),
        CommonConfig.load_from_disk deps settings fs now = some (Except.error e) →
        CommonSettings.stream_changes deps settings (ticksL ++ (fs, now) :: ticksR)
          = CommonSettings.stream_changes deps settings (ticksL ++ ticksR))
    ∧ (∀ (d : List ProtocolVersion) (e : Error) (ca sa : Bool)
        (rest : List TickEnv) (slots : Slots),
        watch_run d
            ({ load := Except.error e, clientAlive := ca, serverAlive := sa } :: rest)
            slots
          = watch_run d rest slots)
    ∧ (∀ (deps : Deps) (settings : CommonSettings) (ticks : List (FS × Time)),
        (∀ t ∈ ticks, ∃ e, CommonConfig.load_from_disk deps settings t.1 t.2
            = some (Except.error e)) →
        CommonSettings.stream_changes deps settings ticks = []) := by
  refine ⟨?_, ?_, ?_⟩
  · intro deps settings fs now e ticksL ticksR h
    simp [CommonSettings.stream_changes, List.filterMap_append, List.filterMap_cons, h]
  · intro d e ca sa rest slots
    simp [watch_run]
  · intro deps settings ticks
    induction ticks with
    | nil => intro _; rfl
    | cons t rest ih =>
      intro h
      obtain ⟨e, he⟩ := h t (List.mem_cons_self t rest)
      have h2 : ∀ t2 ∈ rest, ∃ e2,
          CommonConfig.load_from_disk deps settings t2.1 t2.2
            = some (Except.error e2) :=
        fun t2 ht2 => h t2 (List.mem_cons_of_mem t ht2)
      have hrest := ih h2
      simp only [CommonSettings.stream_changes] at hrest ⊢
      simp [List.filterMap_cons, he, hrest]

/-- C2 witness: a concrete failing tick (unreadable trust-anchors file) is
invisible in the stream, a concrete error tick leaves the fold state
unchanged, and a stream of only failing ticks emits nothing. -/
theorem failed_reload_leaves_publication_intact_witness :
    CommonSettings.stream_changes deps0 settings0 ([] ++ (fs_err, 0) :: [(fs0, 0)])
      = CommonSettings.stream_changes deps0 settings0 ([] ++ [(fs0, 0)])
    ∧ watch_run []
        ({ load := Except.error Error.InvalidPrivateKey
          , clientAlive := true, serverAlive := true } :: ticksOk)
        { client := none, server := none }
      = watch_run [] ticksOk { client := none, server := none }
    ∧ CommonSettings.stream_changes deps0 settings0 [(fs_err, 0)] = [] := by
  refine ⟨?_, ?_, ?_⟩
  · exact failed_reload_leaves_publication_intact.1 deps0 settings0 fs_err 0
      (Error.Io "ca.pem" { kind := IoErrorKind.otherKind 1, code := 0 })
      [] [(fs0, 0)] (by decide)
  · exact failed_reload_leaves_publication_intact.2.1 [] Error.InvalidPrivateKey
      true true ticksOk { client := none, server := none }
  · exact failed_reload_leaves_publication_intact.2.2 deps0 settings0 [(fs_err, 0)]
      (fun t ht => by
        rw [List.mem_singleton] at ht
        subst ht
        exact ⟨Error.Io "ca.pem" { kind := IoErrorKind.otherKind 1, code := 0 },
          by decide⟩)

/-- A successful run of the read loop reaches an end-of-file attempt
through interrupted attempts only, and returns the accumulator extended by
every chunk read along the way. -/
theorem load_file_loop_ok_eof :
    ∀ (attempts : List ReadAttempt) (acc bytes : Bytes),
      load_file_loop attempts acc = some (Except.ok bytes) →
      ∃ c, eof_contents attempts = some c ∧ bytes = acc ++ c := by
  intro attempts
  induction attempts with
  | nil => intro acc bytes h; simp [load_file_loop] at h
  | cons a rest ih =>
    intro acc bytes h
    simp only [load_file_loop] at h
    split at h
    next heq =>
      simp only [Option.some.injEq, Except.ok.injEq] at h
      exact ⟨a.chunk, by simp [eof_contents, heq], h.symm⟩
    next e heq =>
      by_cases hk : e.kind = IoErrorKind.interrupted
      · rw [if_pos hk] at h
        obtain ⟨c, hc, hb⟩ := ih (acc ++ a.chunk) bytes h
        refine ⟨a.chunk ++ c, ?_, ?_⟩
        · simp [eof_contents, heq, hk, hc]
        · rw [hb, List.append_assoc]
      · rw [if_neg hk] at h
        simp at h

/-- C8: `load_file_contents` maps an open failure to `Io(path, cause)`, the
read loop retries an `Interrupted` attempt keeping what it read so far,
stops with the error on any other failure (which `load_file_contents`
wraps as `Io(path, cause)`), and a successful result means the file was
read through interrupted attempts only up to an end-of-file read, yielding
exactly the full accumulated contents — never a partial success. -/
theorem load_file_contents_reads_to_eof :
    (∀ (path : Path) (fs : FS) (e : IoError), (fs path).openResult = some e →
        load_file_contents path fs = some (Except.error (Error.Io path e)))
    ∧ (∀ (a : ReadAttempt) (rest : List ReadAttempt) (acc : Bytes) (e : IoError),
        a.outcome = some e → e.kind = IoErrorKind.interrupted →
        load_file_loop (a :: rest) acc = load_file_loop rest (acc ++ a.chunk))
    ∧ (∀ (a : ReadAttempt) (rest : List ReadAttempt) (acc : Bytes) (e : IoError),
        a.outcome = some e → e.kind ≠ IoErrorKind.interrupted →
        load_file_loop (a :: rest) acc = some (Except.error e))
    ∧ (∀ (path : Path) (fs : FS) (e : IoError),
        load_file (fs path) = some (Except.error e) →
        load_file_contents path fs = some (Except.error (Error.Io path e)))
    ∧ (∀ (fb : FileBehavior) (bytes : Bytes),
        load_file fb = some (Except.ok bytes) →
        fb.openResult = none ∧ eof_contents fb.attempts = some bytes) := by
  refine ⟨?_, ?_, ?_, ?_, ?_⟩
  · intro path fs e h
    simp [load_file_contents, load_file, h]
  · intro a rest acc e h hk
    simp [load_file_loop, h, hk]
  · intro a rest acc e h hk
    simp [load_file_loop, h, hk]
  · intro path fs e h
    simp [load_file_contents, h]
  · intro fb bytes h
    cases ho : fb.openResult with
    | some e => simp [load_file, ho] at h
    | none =>
      simp only [load_file, ho] at h
      obtain ⟨c, hc, hb⟩ := load_file_loop_ok_eof fb.attempts [] bytes h
      simp only [List.nil_append] at hb
      exact ⟨rfl, by rw [hc, hb]⟩

/-- C8 witness: concrete instances of each conjunct — an open failure
yields `Io`, an interrupted read is retried, a non-interrupted read error
stops the loop and is wrapped as `Io`, and a read interrupted once then
completed returns the full contents `[1, 2]`. -/
theorem load_file_contents_reads_to_eof_witness :
    load_file_contents "x" (fun _ =>
        { openResult := some { kind := IoErrorKind.otherKind 5, code := 9 }
        , attempts := [] })
      = some (Except.error
          (Error.Io "x" { kind := IoErrorKind.otherKind 5, code := 9 }))
    ∧ load_file_loop
        ({ chunk := [1]
          , outcome := some { kind := IoErrorKind.interrupted, code := 0 } }
          :: [{ chunk := [2], outcome := none }]) []
      = load_file_loop [{ chunk := [2], outcome := none }] ([] ++ [1])
    ∧ load_file_loop
        [{ chunk := [3], outcome := some { kind := IoErrorKind.otherKind 4, code := 0 } }]
        []
      = some (Except.error { kind := IoErrorKind.otherKind 4, code := 0 })
    ∧ load_file_contents "y" (fun _ =>
        { openResult := none
        , attempts :=
            [{ chunk := [3]
              , outcome := some { kind := IoErrorKind.otherKind 6, code := 0 } }] })
      = some (Except.error (Error.Io "y" { kind := IoErrorKind.otherKind 6, code := 0 }))
    ∧ (fbRetry.openResult = none ∧ eof_contents fbRetry.attempts = some [1, 2]) := by
  refine ⟨?_, ?_, ?_, ?_, ?_⟩
  · exact load_file_contents_reads_to_eof.1 "x" _ _ rfl
  · exact load_file_contents_reads_to_eof.2.1 _ _ [] _ rfl rfl
  · exact load_file_contents_reads_to_eof.2.2.1 _ [] [] _ rfl (by decide)
  · exact load_file_contents_reads_to_eof.2.2.2.1 "y" _ _ (by decide)
  · exact load_file_contents_reads_to_eof.2.2.2.2 fbRetry [1, 2] (by decide)

/-- The trust-anchor loop consults only the trust-anchor conversion of its
dependency bundle. -/
theorem parse_trust_anchors_congr (d1 d2 : Deps)
    (h : d1.cert_der_as_trust_anchor = d2.cert_der_as_trust_anchor) :
    ∀ l, parse_trust_anchors d1 l = parse_trust_anchors d2 l := by
  intro l
  induction l with
  | nil => rfl
  | cons a t ih => simp [parse_trust_anchors, h, ih]

/-- C3: when all three files read successfully, the trust anchors parse,
the clock converts, and the end-entity certificate fails syntactic or
X.509 path validation, `load_from_disk` fails with
`EndEntityCertIsNotValid` carrying that detail, and the result is
identical for every private-key parsing and matching behaviour — the
private key is never consulted. -/
theorem end_entity_error_precedes_key_parsing
    (deps : Deps) (settings : CommonSettings) (fs : FS) (now : Time)
    (ta ee pk : Bytes) (certs : List Bytes) (anchors : List TrustAnchor)
    (t : WebpkiTime) (e : WebpkiError)
    (h1 : load_file_contents settings.trust_anchors fs = some (Except.ok ta))
    (h2 : deps.pemfile_certs ta = Except.ok certs)
    (h3 : parse_trust_anchors deps certs = Except.ok anchors)
    (h4 : load_file_contents settings.end_entity_cert fs = some (Except.ok ee))
    (h5 : load_file_contents settings.private_key fs = some (Except.ok pk))
    (h6 : deps.time_to_webpki now = Except.ok t)
    (h7 : deps.validate_end_entity_cert anchors [ee] t = Except.error e) :
    CommonConfig.load_from_disk deps settings fs now
      = some (Except.error (Error.EndEntityCertIsNotValid e))
    ∧ ∀ (pkparse : Bytes → Option ParsedKey)
        (kmatch : ParsedKey → List Bytes → Bool),
        CommonConfig.load_from_disk
            { deps with parse_private_key := pkparse, key_matches_cert := kmatch }
            settings fs now
          = some (Except.error (Error.EndEntityCertIsNotValid e)) := by
  constructor
  · simp [CommonConfig.load_from_disk, CertResolver.new, h1, h2, h3, h4, h5, h6, h7]
  · intro pkparse kmatch
    have h3b : parse_trust_anchors
        { deps with parse_private_key := pkparse, key_matches_cert := kmatch }
        certs = Except.ok anchors :=
      (parse_trust_anchors_congr
        { deps with parse_private_key := pkparse, key_matches_cert := kmatch }
        deps rfl certs).trans h3
    simp [CommonConfig.load_from_disk, CertResolver.new, h1, h2, h3b, h4, h5, h6, h7]

/-- C3 witness: with concrete files and a dependency bundle whose path
validation fails with detail `7`, the loader fails with
`EndEntityCertIsNotValid 7`, also under a key parser that rejects
everything. -/
theorem end_entity_error_precedes_key_parsing_witness :
    CommonConfig.load_from_disk deps_badcert settings0 fs0 0
      = some (Except.error (Error.EndEntityCertIsNotValid 7))
    ∧ CommonConfig.load_from_disk
        { deps_badcert with
            parse_private_key := fun _ => none
          , key_matches_cert := fun _ _ => false }
        settings0 fs0 0
      = some (Except.error (Error.EndEntityCertIsNotValid 7)) := by
  have h := end_entity_error_precedes_key_parsing deps_badcert settings0 fs0 0
    [1] [2] [3] [[1]] [[1]] 0 7
    (by decide) (by decide) (by decide) (by decide) (by decide) (by decide)
    (by decide)
  exact ⟨h.1, h.2 (fun _ => none) (fun _ _ => false)⟩

/-- C4: when the trust-anchors file reads successfully but its contents are
rejected by the PEM certificate extractor, or some extracted certificate
cannot be interpreted as a trust anchor, `load_from_disk` fails with
`FailedToParseTrustAnchors` (without detail in the first case, with the
webpki detail in the second) and produces no `CommonConfig`. -/
theorem bad_trust_anchors_fail_with_parse_error
    (deps : Deps) (settings : CommonSettings) (fs : FS) (now : Time) (b : Bytes)
    (hread : load_file_contents settings.trust_anchors fs = some (Except.ok b)) :
    (deps.pemfile_certs b = Except.error () →
      CommonConfig.load_from_disk deps settings fs now
        = some (Except.error (Error.FailedToParseTrustAnchors none)))
    ∧ ∀ (certs : List Bytes) (e : WebpkiError),
        deps.pemfile_certs b = Except.ok certs →
        parse_trust_anchors deps certs = Except.error e →
        CommonConfig.load_from_disk deps settings fs now
          = some (Except.error (Error.FailedToParseTrustAnchors (some e))) := by
  constructor
  · intro h
    simp [CommonConfig.load_from_disk, hread, h]
  · intro certs e hok hanch
    simp [CommonConfig.load_from_disk, hread, hok, hanch]

/-- C4 witness: with concrete files, a dependency bundle whose PEM
extraction fails yields `FailedToParseTrustAnchors None`, and one whose
trust-anchor conversion fails with detail `3` yields
`FailedToParseTrustAnchors (Some 3)`. -/
theorem bad_trust_anchors_fail_with_parse_error_witness :
    CommonConfig.load_from_disk deps_bad_pem settings0 fs0 0
      = some (Except.error (Error.FailedToParseTrustAnchors none))
    ∧ CommonConfig.load_from_disk deps_bad_anchor settings0 fs0 0
      = some (Except.error (Error.FailedToParseTrustAnchors (some 3))) :=
  ⟨(bad_trust_anchors_fail_with_parse_error deps_bad_pem settings0 fs0 0 [1]
      (by decide)).1 rfl,
   (bad_trust_anchors_fail_with_parse_error deps_bad_anchor settings0 fs0 0 [1]
      (by decide)).2 [[1]] 3 rfl (by decide)⟩

/-- C9: the loader's result depends on the filesystem only through the
byte-strings of the three files: two filesystems in which the three reads
return the same results, observed at the same instant with the same
library behaviour, give identical results — the same `CommonConfig` on
success, the same error on failure. -/
theorem load_from_disk_deterministic
    (deps : Deps) (settings : CommonSettings) (now : Time) (fsA fsB : FS)
    (hta : load_file_contents settings.trust_anchors fsA
        = load_file_contents settings.trust_anchors fsB)
    (hee : load_file_contents settings.end_entity_cert fsA
        = load_file_contents settings.end_entity_cert fsB)
    (hpk : load_file_contents settings.private_key fsA
        = load_file_contents settings.private_key fsB) :
    CommonConfig.load_from_disk deps settings fsA now
      = CommonConfig.load_from_disk deps settings fsB now := by
  unfold CommonConfig.load_from_disk
  rw [hta, hee, hpk]

/-- C9 witness: a filesystem that delivers each file in one read and one
that is first interrupted on the trust-anchors file but delivers the same
bytes produce the same loader result. -/
theorem load_from_disk_deterministic_witness :
    CommonConfig.load_from_disk deps0 settings0 fs0 0
      = CommonConfig.load_from_disk deps0 settings0 fs_retry 0 :=
  load_from_disk_deterministic deps0 settings0 0 fs0 fs_retry
    (by decide) (by decide) (by decide)

/-- While the fold is still running, the two slots hold exactly the pair of
the latest fully published generation (or the starting slots before the
first publication): both slots were written in the same fold step, so a
subscriber reading both never pairs different generations. -/
theorem watch_run_pairs (d : List ProtocolVersion) :
    ∀ (ticks : List TickEnv) (slots : Slots),
      (watch_run d ticks slots).2 = true →
      (watch_run d ticks slots).1 = pair_of_pubs slots (watch_publications d ticks) := by
  intro ticks
  induction ticks with
  | nil => intro slots _; rfl
  | cons t rest ih =>
    intro slots h
    cases hl : t.load with
    | error e =>
      simp only [watch_run, watch_publications, hl] at h ⊢
      exact ih slots h
    | ok config =>
      cases hca : t.clientAlive with
      | false =>
        simp [watch_run, fold_step, hl, hca] at h
      | true =>
        cases hsa : t.serverAlive with
        | false => simp [watch_run, fold_step, hl, hca, hsa] at h
        | true =>
          simp only [watch_run, watch_publications, fold_step, hl, hca, hsa,
            if_true, pair_of_pubs] at h ⊢
          exact ih _ h

/-- C1 (amended): every generation published by the fold pairs the
placeholder client view with a server view derived by `ServerConfig::from`
from that generation's `CommonConfig`, the server view sharing that
config's `CertResolver`; and while the fold runs, the two slots always
hold the pair of one single generation, never a client view of generation
N with a server view of generation N-1. -/
theorem fold_publishes_consistent_generation (d : List ProtocolVersion)
    (ticks : List TickEnv) :
    (∀ p ∈ watch_publications d ticks,
        p.2.1 = ServerConfig.from_common d p.2.2
        ∧ p.2.1.inner.cert_resolver = some p.2.2.cert_resolver)
    ∧ ((watch_run d ticks { client := none, server := none }).2 = true →
        (watch_run d ticks { client := none, server := none }).1
          = pair_of_pubs { client := none, server := none }
              (watch_publications d ticks)) := by
  constructor
  · intro p
    induction ticks with
    | nil => intro hp; simp [watch_publications] at hp
    | cons t rest ih =>
      intro hp
      cases hl : t.load with
      | error e =>
        simp only [watch_publications, hl] at hp
        exact ih hp
      | ok config =>
        cases hca : t.clientAlive with
        | false => simp [watch_publications, hl, hca] at hp
        | true =>
          cases hsa : t.serverAlive with
          | false => simp [watch_publications, hl, hca, hsa] at hp
          | true =>
            simp only [watch_publications, hl, hca, hsa, if_true,
              List.mem_cons] at hp
            rcases hp with hpe | hpm
            · subst hpe
              exact ⟨rfl, rfl⟩
            · exact ih hpm
  · exact watch_run_pairs d ticks { client := none, server := none }

/-- C1 (amended) witness: for a concrete run with one successful tick, the
published generation's server view is derived from its `CommonConfig` and
shares its resolver, and the final slots are exactly the pair of that
publication. -/
theorem fold_publishes_consistent_generation_witness :
    (pubA.2.1 = ServerConfig.from_common [] pubA.2.2
      ∧ pubA.2.1.inner.cert_resolver = some pubA.2.2.cert_resolver)
    ∧ (watch_run [] ticksOk { client := none, server := none }).1
        = pair_of_pubs { client := none, server := none }
            (watch_publications [] ticksOk) :=
  ⟨(fold_publishes_consistent_generation [] ticksOk).1 pubA (by decide),
   (fold_publishes_consistent_generation [] ticksOk).2 (by decide)⟩

/-- C5 (amended): the fold never terminates while the loader keeps failing
(and the slots stay as they are), never terminates while both slots retain
live watchers, and terminates exactly at a successfully loaded
configuration arriving when the client slot or the server slot has lost
all its watchers. -/
theorem fold_termination_condition (d : List ProtocolVersion) :
    (∀ (ticks : List TickEnv) (slots : Slots),
        (∀ t ∈ ticks, ∃ e, t.load = Except.error e) →
        watch_run d ticks slots = (slots, true))
    ∧ (∀ (ticks : List TickEnv) (slots : Slots),
        (∀ t ∈ ticks, t.clientAlive = true ∧ t.serverAlive = true) →
        (watch_run d ticks slots).2 = true)
    ∧ (∀ (t : TickEnv) (rest : List TickEnv) (slots : Slots)
        (config : CommonConfig),
        t.load = Except.ok config →
        (t.clientAlive = false ∨ t.serverAlive = false) →
        (watch_run d (t :: rest) slots).2 = false) := by
  refine ⟨?_, ?_, ?_⟩
  · intro ticks
    induction ticks with
    | nil => intro slots _; rfl
    | cons t rest ih =>
      intro slots h
      obtain ⟨e, he⟩ := h t (List.mem_cons_self t rest)
      simp only [watch_run, he]
      exact ih slots (fun t2 ht2 => h t2 (List.mem_cons_of_mem t ht2))
  · intro ticks
    induction ticks with
    | nil => intro slots _; rfl
    | cons t rest ih =>
      intro slots h
      obtain ⟨hca, hsa⟩ := h t (List.mem_cons_self t rest)
      cases hl : t.load with
      | error e =>
        simp only [watch_run, hl]
        exact ih slots (fun t2 ht2 => h t2 (List.mem_cons_of_mem t ht2))
      | ok config =>
        simp only [watch_run, fold_step, hl, hca, hsa, if_true]
        exact ih _ (fun t2 ht2 => h t2 (List.mem_cons_of_mem t ht2))
  · intro t rest slots config hl hdead
    rcases hdead with hca | hsa
    · simp [watch_run, fold_step, hl, hca]
    · cases hca2 : t.clientAlive with
      | false => simp [watch_run, fold_step, hl, hca2]
      | true => simp [watch_run, fold_step, hl, hca2, hsa]

/-- C5 (amended) witness: a concrete always-failing tick leaves the fold
running with the slots untouched, a concrete run with both watchers alive
keeps running, and a concrete successful tick with the server watchers
dropped terminates the fold. -/
theorem fold_termination_condition_witness :
    watch_run []
        [{ load := Except.error Error.InvalidPrivateKey
          , clientAlive := true, serverAlive := true }]
        { client := none, server := none }
      = ({ client := none, server := none }, true)
    ∧ (watch_run [] ticksOk { client := none, server := none }).2 = true
    ∧ (watch_run []
          [{ load := Except.ok cfgA, clientAlive := true, serverAlive := false }]
          { client := none, server := none }).2 = false := by
  refine ⟨?_, ?_, ?_⟩
  · exact (fold_termination_condition []).1 _ { client := none, server := none }
      (fun t ht => by
        rw [List.mem_singleton] at ht
        subst ht
        exact ⟨Error.InvalidPrivateKey, rfl⟩)
  · exact (fold_termination_condition []).2.1 ticksOk { client := none, server := none }
      (fun t ht => by
        simp only [ticksOk, List.mem_singleton] at ht
        subst ht
        exact ⟨rfl, rfl⟩)
  · exact (fold_termination_condition []).2.2 _ [] { client := none, server := none }
      cfgA rfl (Or.inr rfl)

end TlsConfig
